import Mathlib

/-!
Shallow embedding of the kabutan disclosure pipeline:
`collect_kabutan_disclosures.py` (monthly collector) and
`organize_stock_disclosures.py` (per-stock aggregator).

External effects (HTTP, S3, the clock) are modelled as explicit inputs and
outputs: a listing page becomes a value of type `Option (List RawDisclosure)`
(`none` = the fetch failed after the retry loop, `some rs` = the page was
fetched and extraction produced `rs`), and an S3 put becomes a returned
document or key.  Timestamp fields (`updated_at`, `processed_at`,
`created_at`) are omitted: they are wall-clock noise that no computation
reads back.  Python floats are modelled exactly: every importance
score reachable in the code is a sum of the decimal constants 0.1/0.2/0.3/0.5
capped at 1.0 — always a whole number of tenths — so scores are carried as
naturals counting tenths (the float `0.6` is the value `6`), and IEEE double
arithmetic agrees with exact decimal arithmetic at every threshold the code
compares against (0.4, 0.6, 0.7).
-/

/-- Python `needle in haystack`: contiguous-substring test on the
character sequences. -/
def containsSub (needle : List Char) : List Char → Bool
  | [] => needle.isEmpty
  | c :: rest => needle.isPrefixOf (c :: rest) || containsSub needle rest

/-- Python `needle in haystack` on strings. -/
def pyIn (needle haystack : String) : Bool :=
  containsSub needle.data haystack.data

/-- Numeric value of an ASCII digit character. -/
def digitVal (c : Char) : Nat := c.toNat - '0'.toNat

/-- Value of a digit run, as computed by Python `int` on a digit string. -/
def digitsToNat (cs : List Char) : Nat :=
  cs.foldl (fun acc c => acc * 10 + digitVal c) 0

/-- Python `int(s)` restricted to the digit-run case that actually occurs in
this pipeline; `none` models the `ValueError` raised on anything else. -/
def parseNatDigits (cs : List Char) : Option Nat :=
  if cs ≠ [] ∧ cs.all Char.isDigit then some (digitsToNat cs) else none

/-- Python format spec `02d`: pad a number to at least two digits. -/
def pad2 (n : Nat) : String :=
  if n < 10 then "0" ++ toString n else toString n

/-- The `"YYYY-MM-DD"` date strings both scripts build with f-strings. -/
def fmtDate (y m d : Nat) : String :=
  toString y ++ "-" ++ pad2 m ++ "-" ++ pad2 d

/-- ASCII lowercasing, for Python `str.lower()` (the Japanese keywords the
code compares after lowering are unaffected by `lower`). -/
def pyLower (s : String) : String := String.mk (s.data.map Char.toLower)

/-- Python `str.strip()`: drop leading and trailing whitespace, working on
the character sequence. -/
def pyStrip (s : String) : String :=
  String.mk
    (((s.data.dropWhile Char.isWhitespace).reverse.dropWhile
      Char.isWhitespace).reverse)

/-- Python slice `s[:n]` (characters). -/
def pyTake (s : String) (n : Nat) : String := String.mk (s.data.take n)

/-- Python slice `s[n:]` (characters). -/
def pyDrop (s : String) (n : Nat) : String := String.mk (s.data.drop n)

/-- Replace every non-overlapping occurrence of `pat` (non-empty in all
uses) by `rep`, left to right — Python `str.replace`. -/
def replaceSub (pat rep : List Char) : List Char → List Char
  | [] => []
  | c :: rest =>
    if pat ≠ [] ∧ pat.isPrefixOf (c :: rest) then
      rep ++ replaceSub pat rep (rest.drop (pat.length - 1))
    else c :: replaceSub pat rep rest
termination_by cs => cs.length
decreasing_by
  · simp only [List.length_cons]
    have := List.length_drop (pat.length - 1) rest
    omega
  · simp only [List.length_cons]; omega

/-- Python `str.replace` on strings. -/
def pyReplace (s pat rep : String) : String :=
  String.mk (replaceSub pat.data rep.data s.data)

/-!  `KabutanDailyCollector.parse_datetime_str` (collector lines 92-125).

The two `re.search` calls are embedded as leftmost scans of the character
list.  Pattern 1 is `(\d{2})/(\d{2})/(\d{2})\s+(\d{1,2}:\d{2})`, pattern 2 is
`(\d{2})/(\d{2})/(\d{2})`.  In both, every adjacent pair of character classes
is disjoint, so the greedy matcher below is exactly the regex semantics. -/

/-- Match `(\d{2})/(\d{2})/(\d{2})` at the head of the list; returns the two
two-digit groups as numbers and the remaining characters. -/
def matchYMDAt : List Char → Option (Nat × Nat × Nat × List Char)
  | a :: b :: s1 :: c :: d :: s2 :: e :: f :: rest =>
    if a.isDigit && b.isDigit && s1 == '/' && c.isDigit && d.isDigit &&
        s2 == '/' && e.isDigit && f.isDigit then
      some (digitVal a * 10 + digitVal b, digitVal c * 10 + digitVal d,
            digitVal e * 10 + digitVal f, rest)
    else none
  | _ => none

/-- Match `\d{1,2}:\d{2}` at the head of the list (two-digit hour first, as
the greedy regex tries it). -/
def matchTime : List Char → Option String
  | a :: b :: c :: d :: e :: rest =>
    if a.isDigit && b.isDigit && c == ':' && d.isDigit && e.isDigit then
      some (String.mk [a, b, c, d, e])
    else if a.isDigit && b == ':' && c.isDigit && d.isDigit then
      some (String.mk [a, b, c, d])
    else
      match rest with
      | _ => none
  | [a, b, c, d] =>
    if a.isDigit && b == ':' && c.isDigit && d.isDigit then
      some (String.mk [a, b, c, d])
    else none
  | _ => none

/-- Match `\s+(\d{1,2}:\d{2})` at the head of the list. -/
def matchTimeAfterWs : List Char → Option String
  | c :: rest =>
    if c.isWhitespace then matchTime (rest.dropWhile Char.isWhitespace)
    else none
  | [] => none

/-- Match the full first pattern `\d{2}/\d{2}/\d{2}\s+\d{1,2}:\d{2}` at the
head of the list. -/
def matchP1At (cs : List Char) : Option (Nat × Nat × Nat × String) :=
  match matchYMDAt cs with
  | some (yy, mm, dd, rest) =>
    match matchTimeAfterWs rest with
    | some t => some (yy, mm, dd, t)
    | none => none
  | none => none

/-- `re.search` for pattern 1: leftmost match anywhere in the text. -/
def searchP1 : List Char → Option (Nat × Nat × Nat × String)
  | [] => none
  | c :: rest =>
    match matchP1At (c :: rest) with
    | some m => some m
    | none => searchP1 rest

/-- `re.search` for pattern 2 (`\d{2}/\d{2}/\d{2}` with no time part). -/
def searchP2 : List Char → Option (Nat × Nat × Nat)
  | [] => none
  | c :: rest =>
    match matchYMDAt (c :: rest) with
    | some (yy, mm, dd, _) => some (yy, mm, dd)
    | none => searchP2 rest

/-- The date-only fallback half of `parse_datetime_str` (its second
`re.search`): validated match gives a date and no time. -/
def parse_datetime_p2 (text : String) : Option String × Option String :=
  match searchP2 text.data with
  | some (yy, mm, dd) =>
    if 1 ≤ mm ∧ mm ≤ 12 ∧ 1 ≤ dd ∧ dd ≤ 31 then
      (some (fmtDate (2000 + yy) mm dd), none)
    else (none, none)
  | none => (none, none)

/-- `KabutanDailyCollector.parse_datetime_str(text, year)`: parse the site's
`YY/MM/DD HH:MM` (or `YY/MM/DD`) datetime text.  The two-digit year is mapped
through the fixed century offset `2000 + yy`; month and day are only
range-checked (`1..12`, `1..31`).  The `year` argument is unused, as in the
source. -/
def parse_datetime_str (text : String) (_year : Nat) :
    Option String × Option String :=
  match searchP1 text.data with
  | some (yy, mm, dd, timeStr) =>
    if 1 ≤ mm ∧ mm ≤ 12 ∧ 1 ≤ dd ∧ dd ≤ 31 then
      (some (fmtDate (2000 + yy) mm dd), some timeStr)
    else parse_datetime_p2 text
  | none => parse_datetime_p2 text

/-- `KabutanDailyCollector.categorize_disclosure` (collector lines 302-314):
an if/elif chain over keyword lists — a first-match priority rule. -/
def categorize_disclosure (title : String) : String :=
  if ["決算", "業績", "四半期", "売上", "利益"].any (fun w => pyIn w title) then
    "決算・業績"
  else if ["配当", "株主優待", "自己株式"].any (fun w => pyIn w title) then
    "配当・株主還元"
  else if ["人事", "役員", "代表取締役"].any (fun w => pyIn w title) then
    "人事・組織"
  else if ["買収", "M&A", "資本提携", "業務提携"].any (fun w => pyIn w title) then
    "M&A・提携"
  else if ["新製品", "新サービス", "開発", "特許"].any (fun w => pyIn w title) then
    "事業・製品"
  else "その他"

/-- One table cell as BeautifulSoup hands it to `parse_disclosure_row`:
`get_text()` reads only `text`; HTML attributes ride along unread. -/
structure Cell where
  text : String
  attrs : List (String × String)
deriving DecidableEq, Repr

/-- The record dict built by the collector's two extraction paths.
`datetimeStr` and `info_type` are `none` where the fallback path leaves the
dict keys out. -/
structure RawDisclosure where
  stock_code : String
  company_name : String
  title : String
  date : String
  datetimeStr : Option String
  category : String
  info_type : Option String
  source : String
  year : Nat
  month : Nat
deriving DecidableEq, Repr

/-- `re.match(r'^(\d{4})$', s)`: the whole string is exactly four digits. -/
def isFourDigits (s : String) : Bool :=
  s.length == 4 && s.data.all Char.isDigit

/-- `KabutanDailyCollector.parse_disclosure_row(cells, year, month)`
(collector lines 130-196): column-position parse of one table row.  Expects
at least six cells (code / company / market / info type / title / datetime),
validates the four-digit stock code, and falls back to the first of the
month when the datetime text does not parse.  `year`/`month` of the record
are re-read from the date string, as `int(date_str[:4])` /
`int(date_str[5:7])` do. -/
def parse_disclosure_row (cells : List Cell) (year month : Nat) :
    Option RawDisclosure :=
  let texts := cells.map (fun c => pyStrip c.text)
  match texts with
  | t0 :: t1 :: _t2 :: t3 :: t4 :: t5 :: _ =>
    if isFourDigits t0 then
      if 1000 ≤ digitsToNat t0.data ∧ digitsToNat t0.data ≤ 9999 then
        let company_name := if pyStrip t1 ≠ "" then pyStrip t1 else "不明"
        let info_type := pyStrip t3
        let title := if pyStrip t4 ≠ "" then pyStrip t4 else "不明"
        let datetime_text := pyStrip t5
        let parsed := parse_datetime_str datetime_text year
        let date_str :=
          match parsed.1 with
          | some d => d
          | none => toString year ++ "-" ++ pad2 month ++ "-01"
        some {
          stock_code := t0
          company_name := company_name
          title := title
          date := date_str
          datetimeStr := some (match parsed.2 with
            | some t => date_str ++ " " ++ t
            | none => date_str)
          category := categorize_disclosure title
          info_type := some info_type
          source := "株探"
          year := digitsToNat (pyTake date_str 4).data
          month := digitsToNat (pyTake (pyDrop date_str 5) 2).data }
      else none
    else none
  | _ => none

/-- Pagination keywords the fallback item parser rejects. -/
def paginationKeywords : List String := ["次へ", "前へ", "＞»", "«＜"]

/-- Table-header keywords the fallback item parser rejects. -/
def headerKeywords : List String := ["コード\n", "会社名\n", "開示日時\n"]

/-- Python `\w` word-character test, approximated: ASCII alphanumerics,
underscore, and all non-ASCII characters (the kana/kanji around the codes
are Unicode word characters). -/
def isWordChar (c : Char) : Bool :=
  c.isAlphanum || c == '_' || decide (128 ≤ c.toNat)

/-- `re.findall(r'\b(\d{4})\b', text)`: non-overlapping four-digit runs
delimited by word boundaries, left to right; `prev` is the character just
before the scan position. -/
def findCodesGo (prev : Option Char) : List Char → List String
  | [] => []
  | c :: b :: c2 :: d :: rest2 =>
    let boundaryOk := match prev with
      | some p => !isWordChar p
      | none => true
    if boundaryOk && c.isDigit && b.isDigit && c2.isDigit && d.isDigit &&
        (match rest2 with
         | [] => true
         | e :: _ => !isWordChar e) then
      String.mk [c, b, c2, d] :: findCodesGo (some d) rest2
    else findCodesGo (some c) (b :: c2 :: d :: rest2)
  | c :: rest => findCodesGo (some c) rest

/-- All `\b\d{4}\b` matches in a string. -/
def findFourDigitCodes (s : String) : List String :=
  findCodesGo none s.data

/-- `KabutanDailyCollector.parse_disclosure_item(item, year, month)`
(collector lines 201-253): free-text fallback extraction.  Rejects
pagination/header fragments and short text, takes the first in-range
four-digit code, and falls back to the first of the month when no datetime
parses.  The produced dict has no `datetime` or `info_type` key. -/
def parse_disclosure_item (itemText : String) (year month : Nat) :
    Option RawDisclosure :=
  let text := pyStrip itemText
  if paginationKeywords.any (fun k => pyIn k text) then none
  else if headerKeywords.any (fun k => pyIn k text) then none
  else if text.length < 15 then none
  else
    match (findFourDigitCodes text).find?
        (fun c => decide (1000 ≤ digitsToNat c.data) &&
                  decide (digitsToNat c.data ≤ 9999)) with
    | none => none
    | some stock_code =>
      let parsed := parse_datetime_str text year
      let date_str :=
        match parsed.1 with
        | some d => d
        | none => toString year ++ "-" ++ pad2 month ++ "-01"
      some {
        stock_code := stock_code
        company_name := "抽出中"
        title := pyTake text 200
        date := date_str
        datetimeStr := none
        category := categorize_disclosure text
        info_type := none
        source := "株探"
        year := year
        month := month }

/-!  `KabutanDailyCollector.fetch_month_disclosures` (collector lines
326-396).  One listing page, after the three-attempt retry loop and HTML
extraction, is a value of `Option (List RawDisclosure)`: `none` when every
retry failed (the `if not success` path), `some rs` when a 200 response was
extracted to the records `rs` (possibly none).  The loop body is embedded
verbatim: a failed page increments `consecutive_empty` and `continue`s past
the 1000-page guard; an empty page increments the same counter; a non-empty
page resets it and appends its records; the loop stops when the counter
reaches `max_consecutive_empty = 20` or, on a fetched page, when the next
page number would exceed 1000.  The loop provably runs at most ~21·1001
iterations, so the fuel of 22000 is never exhausted.  The result pairs the
collected records with the last page number requested. -/
def fetchMonthGo (pages : Nat → Option (List RawDisclosure)) :
    Nat → Nat → Nat → List RawDisclosure → List RawDisclosure × Nat
  | 0, page, _, acc => (acc, page - 1)
  | fuel + 1, page, consecutive_empty, acc =>
    if 20 ≤ consecutive_empty then (acc, page - 1)
    else
      match pages page with
      | none => fetchMonthGo pages fuel (page + 1) (consecutive_empty + 1) acc
      | some rs =>
        if rs.isEmpty then
          if page + 1 > 1000 then (acc, page)
          else fetchMonthGo pages fuel (page + 1) (consecutive_empty + 1) acc
        else
          if page + 1 > 1000 then (acc ++ rs, page)
          else fetchMonthGo pages fuel (page + 1) 0 (acc ++ rs)

/-- The whole page walk of `fetch_month_disclosures`: start at page 1 with a
zero consecutive-empty counter and no records. -/
def fetch_month_disclosures (pages : Nat → Option (List RawDisclosure)) :
    List RawDisclosure × Nat :=
  fetchMonthGo pages 22000 1 0 []

/-- Count occurrences by a key, in first-seen key order — the
`dict.get(k, 0) + 1` accumulation both scripts use. -/
def bumpCount {κ : Type} [DecidableEq κ] (k : κ) :
    List (κ × Nat) → List (κ × Nat)
  | [] => [(k, 1)]
  | (k0, n) :: rest =>
    if k0 = k then (k0, n + 1) :: rest else (k0, n) :: bumpCount k rest

/-- Fold a list into per-key counts (also the content of a
`collections.Counter`). -/
def countByKey {α κ : Type} [DecidableEq κ] (f : α → κ) (xs : List α) :
    List (κ × Nat) :=
  xs.foldl (fun acc x => bumpCount (f x) acc) []

/-- The month document written by `save_month_to_s3` (collector lines
398-427), minus the `updated_at` wall-clock field. -/
structure MonthData where
  year : Nat
  month : Nat
  total_disclosures : Nat
  disclosures : List RawDisclosure
  categories : List (String × Nat)
  companies : List (String × Nat)
deriving Repr

/-- `KabutanDailyCollector.save_month_to_s3(year, month, disclosures)`:
builds the month document.  `total_disclosures` is `len(disclosures)` — the
raw record count; no deduplication happens anywhere on this path. -/
def save_month_to_s3 (year month : Nat) (disclosures : List RawDisclosure) :
    MonthData :=
  { year := year
    month := month
    total_disclosures := disclosures.length
    disclosures := disclosures
    categories := countByKey (fun d => d.category) disclosures
    companies := countByKey (fun d => d.company_name) disclosures }

/-!  `organize_stock_disclosures.py`: the per-stock aggregator. -/

/-- The enhanced disclosure dict produced by
`StockBasedDataOrganizer.enhance_disclosure_data` (and the shape stored in
per-stock documents).  `date_normalized`/`year`/`month`/`quarter` are
`Option`s because the corresponding dict keys are only set when the raw
record carried a non-empty date (`quarter` additionally requires a parsed
month).  `processed_at` is omitted (wall clock). -/
structure EnhancedDisclosure where
  stock_code : String
  company_name : String
  title : String
  date : String
  category : String
  company_name_cleaned : String
  date_normalized : Option String
  year : Option Nat
  month : Option Nat
  quarter : Option Nat
  category_detailed : String
  importance_score : Nat
  disclosure_type : String
deriving DecidableEq, Repr

/-- `StockBasedDataOrganizer.create_disclosure_key` (lines 127-132): the
identity key `stock_code_date_title`, preferring `date_normalized` when it
is present and truthy. -/
def create_disclosure_key (d : EnhancedDisclosure) : String :=
  let date := match d.date_normalized with
    | some s => if s ≠ "" then s else d.date
    | none => d.date
  d.stock_code ++ "_" ++ date ++ "_" ++ d.title

/-- The loop body of `merge_disclosures`: walk the new records, appending
each whose key is not yet in the key set. -/
def mergeAux (keys : List String) (acc : List EnhancedDisclosure) :
    List EnhancedDisclosure → List EnhancedDisclosure
  | [] => acc
  | d :: rest =>
    if create_disclosure_key d ∈ keys then mergeAux keys acc rest
    else mergeAux (create_disclosure_key d :: keys) (acc ++ [d]) rest

/-- `StockBasedDataOrganizer.merge_disclosures(existing, new)` (lines
134-155): start from a copy of `existing` and its key set, then append the
new records with unseen identity keys, in order. -/
def merge_disclosures (existing new : List EnhancedDisclosure) :
    List EnhancedDisclosure :=
  mergeAux (existing.map create_disclosure_key) existing new

/-- `re.match(r'^\d{4}-\d{2}-\d{2}$', s)`: already-normalized ISO date. -/
def isIsoDate (s : String) : Bool :=
  match s.data with
  | [a, b, c, d, h1, e, f, h2, g, i] =>
    a.isDigit && b.isDigit && c.isDigit && d.isDigit && h1 == '-' &&
    e.isDigit && f.isDigit && h2 == '-' && g.isDigit && i.isDigit
  | _ => false

/-- A digit run of length between `lo` and `hi`. -/
def digitRun (lo hi : Nat) (cs : List Char) : Bool :=
  cs.all Char.isDigit && decide (lo ≤ cs.length) && decide (cs.length ≤ hi)

/-- `StockBasedDataOrganizer.normalize_date` (lines 308-330): pass ISO dates
through, convert `YYYY/M/D`, `M/D/YYYY` and `YYYYMMDD` forms, and return
anything else unchanged.  The three anchored slash patterns are decided by
splitting on `/`. -/
def normalize_date (date_str : String) : String :=
  if isIsoDate date_str then date_str
  else
    match date_str.data.splitOn '/' with
    | [a, b, c] =>
      if digitRun 4 4 a && digitRun 1 2 b && digitRun 1 2 c then
        String.mk a ++ "-" ++ pad2 (digitsToNat b) ++ "-" ++ pad2 (digitsToNat c)
      else if digitRun 1 2 a && digitRun 1 2 b && digitRun 4 4 c then
        String.mk c ++ "-" ++ pad2 (digitsToNat a) ++ "-" ++ pad2 (digitsToNat b)
      else date_str
    | [w] =>
      match w with
      | [a, b, c, d, e, f, g, h] =>
        if [a, b, c, d, e, f, g, h].all Char.isDigit then
          String.mk [a, b, c, d] ++ "-" ++ String.mk [e, f] ++ "-" ++
            String.mk [g, h]
        else date_str
      | _ => date_str
    | _ => date_str

/-- Drop leading whitespace (`\s*` against a following disjoint class). -/
def dropWs (cs : List Char) : List Char := cs.dropWhile Char.isWhitespace

/-- Does `\s*\d{2}/\d{2}/\d{2}\s*\d{2}:\d{2}$` match the whole of `cs`? -/
def nameTailDatetime (cs : List Char) : Bool :=
  match dropWs cs with
  | a :: b :: s1 :: c :: d :: s2 :: e :: f :: rest =>
    (a.isDigit && b.isDigit && s1 == '/' && c.isDigit && d.isDigit &&
     s2 == '/' && e.isDigit && f.isDigit) &&
    (match dropWs rest with
     | [g, h, col, i, j] =>
       g.isDigit && h.isDigit && col == ':' && i.isDigit && j.isDigit
     | _ => false)
  | _ => false

/-- Does `\s*第\d+期.*$` match the whole of `cs`? -/
def nameTailPeriod (cs : List Char) : Bool :=
  match dropWs cs with
  | c :: rest =>
    c == '第' &&
    (let ds := rest.takeWhile Char.isDigit
     !ds.isEmpty &&
     (match rest.dropWhile Char.isDigit with
      | k :: _ => k == '期'
      | [] => false))
  | [] => false

/-- Does `\s*Notice.*$` match the whole of `cs`? -/
def nameTailNotice (cs : List Char) : Bool :=
  "Notice".data.isPrefixOf (dropWs cs)

/-- Does `\s*\d+$` match the whole of `cs`? -/
def nameTailNumber (cs : List Char) : Bool :=
  !(dropWs cs).isEmpty && (dropWs cs).all Char.isDigit

/-- `re.sub(pattern, '', s)` for an end-anchored pattern: delete from the
leftmost position whose suffix matches, keeping everything before it. -/
def applyEndSub (matchesTail : List Char → Bool) : List Char → List Char
  | [] => []
  | c :: rest =>
    if matchesTail (c :: rest) then []
    else c :: applyEndSub matchesTail rest

/-- `StockBasedDataOrganizer.normalize_company_name` (lines 292-306): strip
the four end-anchored boilerplate patterns in order, then the two company
glyphs, then whitespace. -/
def normalize_company_name (company_name : String) : String :=
  let cs1 := applyEndSub nameTailDatetime company_name.data
  let cs2 := applyEndSub nameTailPeriod cs1
  let cs3 := applyEndSub nameTailNotice cs2
  let cs4 := applyEndSub nameTailNumber cs3
  pyStrip (pyReplace (pyReplace (String.mk cs4) "(株)" "") "㈱" "")

/-- `StockBasedDataOrganizer.get_quarter` (lines 332-341). -/
def get_quarter (month : Nat) : Nat :=
  if month = 1 ∨ month = 2 ∨ month = 3 then 1
  else if month = 4 ∨ month = 5 ∨ month = 6 then 2
  else if month = 7 ∨ month = 8 ∨ month = 9 then 3
  else 4

/-- The ordered `(label, keywords)` rules of `detailed_categorization`
(lines 343-374), in the source's insertion order. -/
def detailedCategories : List (String × List String) :=
  [("決算短信", ["決算短信", "四半期決算短信"]),
   ("決算説明会", ["決算説明会", "決算briefing", "業績説明会"]),
   ("業績予想修正", ["業績予想", "業績見通し修正", "業績修正"]),
   ("配当金", ["配当金", "期末配当", "中間配当", "特別配当"]),
   ("株主優待", ["株主優待", "優待制度"]),
   ("自己株式取得", ["自己株式取得", "自社株買い"]),
   ("株式分割", ["株式分割", "株式併合"]),
   ("新株予約権", ["新株予約権", "ストックオプション"]),
   ("第三者割当増資", ["第三者割当", "第三者割当増資"]),
   ("代表取締役", ["代表取締役", "CEO", "社長"]),
   ("役員人事", ["取締役", "監査役", "執行役員"]),
   ("M&A買収", ["買収", "株式取得", "子会社化"]),
   ("業務提携", ["業務提携", "資本提携"]),
   ("新規事業", ["新規事業", "事業参入"]),
   ("新製品発表", ["新製品", "新商品"]),
   ("設備投資", ["設備投資", "工場建設"]),
   ("適時開示訂正", ["訂正", "修正", "取消"]),
   ("有価証券報告書", ["有価証券報告書", "四半期報告書"]),
   ("定時株主総会", ["定時株主総会"]),
   ("臨時株主総会", ["臨時株主総会"])]

/-- `StockBasedDataOrganizer.detailed_categorization(title, company_name)`:
first matching rule over the lowered `title + " " + company_name` text. -/
def detailed_categorization (title : String) (company_name : String) :
    String :=
  let text := pyLower (title ++ " " ++ company_name)
  match detailedCategories.find? (fun p => p.2.any (fun kw => pyIn kw text)) with
  | some p => p.1
  | none => "その他"

/-- High-importance detailed categories (`calculate_importance_score`). -/
def high_importance_categories : List String :=
  ["決算短信", "業績予想修正", "代表取締役", "M&A買収", "第三者割当増資"]

/-- Medium-importance detailed categories. -/
def medium_importance_categories : List String :=
  ["決算説明会", "配当金", "株式分割", "自己株式取得", "新規事業",
   "業務提携", "設備投資"]

/-- Title keywords adding the 0.2 high-impact bonus. -/
def high_impact_keywords : List String :=
  ["業績予想修正", "赤字", "黒字転換", "増配", "減配", "無配", "買収", "合併"]

/-- Does `\d+(億円)` (or `百万円` / `千万円`) match at the head: a digit run
followed by one of the currency-magnitude suffixes. -/
def currencyTailAt : List Char → Bool
  | c :: rest =>
    c.isDigit &&
    (let rest2 := rest.dropWhile Char.isDigit
     "億円".data.isPrefixOf rest2 || "百万円".data.isPrefixOf rest2 ||
     "千万円".data.isPrefixOf rest2)
  | [] => false

/-- `re.search(r'\d+億円|\d+百万円|\d+千万円', s)`: does a currency-magnitude
amount occur anywhere in the string? -/
def containsCurrencyAmount (s : String) : Bool := go s.data
where go : List Char → Bool
  | [] => false
  | c :: rest => currencyTailAt (c :: rest) || go rest

/-- `StockBasedDataOrganizer.calculate_importance_score` (lines 376-415):
category-tier base (0.5 / 0.3 / 0.1) + 0.2 for a high-impact keyword + 0.1
for a currency-magnitude amount + 0.1 for a title over 50 characters,
capped at 1.0.  The title is lowered before the keyword and currency
checks; the length check uses the original title.  Scores are in exact
tenths: the returned `n` is the float `n / 10` of the source, and double
arithmetic agrees with this exact arithmetic at every threshold compared
later (0.4, 0.6, 0.7). -/
def calculate_importance_score (title0 : String) (category_detailed : String) :
    Nat :=
  let title := pyLower title0
  let base : Nat :=
    if category_detailed ∈ high_importance_categories then 5
    else if category_detailed ∈ medium_importance_categories then 3
    else 1
  let s1 := base +
    (if high_impact_keywords.any (fun k => pyIn k title) then 2 else 0)
  let s2 := s1 + (if containsCurrencyAmount title then 1 else 0)
  let s3 := s2 + (if 50 < title0.length then 1 else 0)
  min s3 10

/-- `StockBasedDataOrganizer.classify_disclosure_type` (lines 417-429). -/
def classify_disclosure_type (category_detailed : String) (title0 : String) :
    String :=
  let title := pyLower title0
  if ["有価証券報告書", "四半期報告書", "決算短信"].any (fun k => pyIn k title) then
    "法定開示"
  else if ["業績予想", "M&A", "人事", "配当"].any
      (fun k => pyIn k category_detailed) then
    "適時開示"
  else if ["説明資料", "プレゼン", "説明会"].any (fun k => pyIn k title) then
    "IR資料"
  else "その他"

/-- `StockBasedDataOrganizer.enhance_disclosure_data` (lines 252-290): copy
the raw dict, normalize the company name and date, and derive the detailed
category, importance score and disclosure type.  `none` models the
`ValueError` that `int(date_normalized[:4])` would raise on a date whose
first characters are not digits (such a record aborts its whole month file
in the source).  When the raw date is empty, the date-derived keys are left
out and the raw `year`/`month` ints survive in the dict. -/
def enhance_disclosure_data (d : RawDisclosure) : Option EnhancedDisclosure :=
  let stock_code := pyStrip d.stock_code
  let company_name := pyStrip d.company_name
  let company_name_cleaned :=
    if company_name ≠ "" ∧ company_name ≠ "抽出中" ∧ company_name ≠ "不明" then
      normalize_company_name company_name
    else "銘柄" ++ stock_code
  let category_detailed := detailed_categorization d.title d.company_name
  let importance_score := calculate_importance_score d.title category_detailed
  let disclosure_type := classify_disclosure_type category_detailed d.title
  if d.date ≠ "" then
    let dn := normalize_date d.date
    if dn ≠ "" then
      match parseNatDigits (pyTake dn 4).data,
            parseNatDigits (pyTake (pyDrop dn 5) 2).data with
      | some y, some m =>
        some { stock_code := stock_code
               company_name := d.company_name
               title := d.title
               date := d.date
               category := d.category
               company_name_cleaned := company_name_cleaned
               date_normalized := some dn
               year := some y
               month := some m
               quarter := some (get_quarter m)
               category_detailed := category_detailed
               importance_score := importance_score
               disclosure_type := disclosure_type }
      | _, _ => none
    else
      some { stock_code := stock_code
             company_name := d.company_name
             title := d.title
             date := d.date
             category := d.category
             company_name_cleaned := company_name_cleaned
             date_normalized := some dn
             year := none
             month := none
             quarter := none
             category_detailed := category_detailed
             importance_score := importance_score
             disclosure_type := disclosure_type }
  else
    some { stock_code := stock_code
           company_name := d.company_name
           title := d.title
           date := d.date
           category := d.category
           company_name_cleaned := company_name_cleaned
           date_normalized := none
           year := some d.year
           month := some d.month
           quarter := none
           category_detailed := category_detailed
           importance_score := importance_score
           disclosure_type := disclosure_type }

/-- The `date_range` part of a stock summary. -/
structure DateRange where
  start_date : String
  end_date : String
deriving DecidableEq, Repr

/-- `StockBasedDataOrganizer.get_date_range` (lines 505-515): min and max of
the well-formed normalized dates (string comparison is the lexicographic
order Python's `min`/`max` use on ISO dates). -/
def get_date_range (ds : List EnhancedDisclosure) : DateRange :=
  let dates := ((ds.filterMap (fun d => d.date_normalized)).filter
    (fun s => s ≠ "")).filter (fun s => isIsoDate s)
  match dates with
  | [] => { start_date := "", end_date := "" }
  | d :: rest => { start_date := rest.foldl min d, end_date := rest.foldl max d }

/-- The Python sort key of the `major_disclosures` sort:
`(date_normalized or '', importance_score)` compared lexicographically. -/
def majorKey (d : EnhancedDisclosure) : Lex (String × Nat) :=
  toLex (d.date_normalized.getD "", d.importance_score)

/-- The `major_disclosures` computation of `create_stock_summary` (lines
473-477): records scoring at least 0.6, sorted descending by
`(date_normalized, importance_score)`, first 20 kept.  `sorted(...,
reverse=True)` is the stable descending sort, which `insertionSort` with the
reversed-key relation reproduces. -/
def major_disclosures_list (ds : List EnhancedDisclosure) :
    List EnhancedDisclosure :=
  ((ds.filter (fun d => decide (6 ≤ d.importance_score))).insertionSort
    (fun a b => majorKey b ≤ majorKey a)).take 20

/-- The stock summary document built by
`StockBasedDataOrganizer.create_stock_summary` (lines 431-503), restricted
to its computed statistics.  The company-name vote (`company_info`) and the
floating-point `analysis_period_years` / `average_disclosures_per_year`
figures are presentation-only fields no later computation reads; they are
omitted.  The empty-input case returns the empty summary. -/
structure StockSummary where
  total_disclosures : Nat
  date_range : DateRange
  category_distribution : List (String × Nat)
  yearly_trend : List (Nat × Nat)
  importance_high : Nat
  importance_medium : Nat
  importance_low : Nat
  major_disclosures : List EnhancedDisclosure
deriving Repr

/-- `StockBasedDataOrganizer.create_stock_summary(stock_code, disclosures)`:
every statistic is recomputed from the full record list passed in. -/
def create_stock_summary (_stock_code : String)
    (ds : List EnhancedDisclosure) : StockSummary :=
  { total_disclosures := ds.length
    date_range := get_date_range ds
    category_distribution := countByKey (fun d => d.category_detailed) ds
    yearly_trend :=
      countByKey id ((ds.filterMap (fun d => d.year)).filter (fun y => y ≠ 0))
    importance_high :=
      (ds.filter (fun d => decide (7 ≤ d.importance_score))).length
    importance_medium :=
      (ds.filter (fun d => decide (4 ≤ d.importance_score) &&
        decide (d.importance_score < 7))).length
    importance_low :=
      (ds.filter (fun d => decide (d.importance_score < 4))).length
    major_disclosures := major_disclosures_list ds }

/-- The per-stock document written by `save_stock_data_to_s3`, minus the
wall-clock metadata. -/
structure StockDocument where
  stock_code : String
  summary : StockSummary
  disclosures : List EnhancedDisclosure
deriving Repr

/-- `StockBasedDataOrganizer.save_stock_data_to_s3(stock_code, disclosures)`
(lines 517-560): sort the records ascending by normalized date, recompute
the summary from that full sorted list, and write the document. -/
def save_stock_data_to_s3 (stock_code : String)
    (disclosures : List EnhancedDisclosure) : StockDocument :=
  let sorted_disclosures := disclosures.insertionSort
    (fun a b => a.date_normalized.getD "" ≤ b.date_normalized.getD "")
  { stock_code := stock_code
    summary := create_stock_summary stock_code sorted_disclosures
    disclosures := sorted_disclosures }

/-- The aggregator's run mode. -/
inductive Mode where
  | full
  | incremental
deriving DecidableEq, Repr

/-- The aggregator's output path for one stock document. -/
def stockOutputKey (stock_code : String) : String :=
  "japan-stocks-5years-chart/stock-based-disclosures/" ++ stock_code ++ ".json"

/-- The aggregator's output path for the global index document (written by
`create_master_index`, lines 562-598). -/
def indexKey : String :=
  "japan-stocks-5years-chart/stock-based-disclosures/index.json"

/-- The incremental branch of `process_stocks_in_batches` for one stock
(lines 609-629): with an existing store, merge and persist only when the
merge is strictly larger (returning the written record list); with no
existing store (or one without a `disclosures` key, which the `Option`
input also covers), persist the new records unconditionally.  `none` is the
explicit skip — no write happens. -/
def process_stock_incremental (existing : Option (List EnhancedDisclosure))
    (newDs : List EnhancedDisclosure) : Option (List EnhancedDisclosure) :=
  match existing with
  | some existing_disclosures =>
    let merged := merge_disclosures existing_disclosures newDs
    if existing_disclosures.length < merged.length then some merged else none
  | none => some newDs

/-- The S3 keys written by `process_stocks_in_batches` (lines 600-648):
in incremental mode, one stock key per non-skipped stock; in full mode, one
key per stock unconditionally. -/
def process_stocks_writes (mode : Mode)
    (stockData : List (String × List EnhancedDisclosure))
    (existingStore : String → Option (List EnhancedDisclosure)) :
    List String :=
  match mode with
  | Mode.incremental =>
    stockData.filterMap (fun p =>
      match process_stock_incremental (existingStore p.1) p.2 with
      | some _ => some (stockOutputKey p.1)
      | none => none)
  | Mode.full => stockData.map (fun p => stockOutputKey p.1)

/-- The S3 keys written by one `run_stock_based_organization` run (lines
650-690): the per-stock writes of Step 3, then — only when the mode is
`full` — the index write of Step 4. -/
def run_stock_based_organization_writes (mode : Mode)
    (stockData : List (String × List EnhancedDisclosure))
    (existingStore : String → Option (List EnhancedDisclosure)) :
    List String :=
  process_stocks_writes mode stockData existingStore ++
    (match mode with
     | Mode.full => [indexKey]
     | Mode.incremental => [])

/-- `re.match(r'^[\dA-Za-z]{4}$', code)`: the stock-code filter
`load_all_monthly_data` applies (line 210) before a record can enter
`stock_data` — every key of the aggregator's per-stock grouping satisfies
it. -/
def is_valid_stock_code (s : String) : Bool :=
  s.length == 4 && s.data.all (fun c => c.isDigit || c.isAlpha)

/-- The number of distinct not-yet-seen identity keys the merge loop meets
in a record list, starting from the seen-key set `keys`: exactly the number
of records `mergeAux` appends. -/
def newKeysCount (keys : List String) : List EnhancedDisclosure → Nat
  | [] => 0
  | d :: rest =>
    if create_disclosure_key d ∈ keys then newKeysCount keys rest
    else newKeysCount (create_disclosure_key d :: keys) rest + 1

/-- A sample enhanced record (as the aggregator would hold it) used to
instantiate theorems at concrete inputs; records with different titles have
different identity keys. -/
def sampleDisc (t : String) : EnhancedDisclosure :=
  { stock_code := "7203"
    company_name := "トヨタ自動車"
    title := t
    date := "2026-01-05"
    category := "その他"
    company_name_cleaned := "トヨタ自動車"
    date_normalized := some "2026-01-05"
    year := some 2026
    month := some 1
    quarter := some 1
    category_detailed := "その他"
    importance_score := 1
    disclosure_type := "その他" }

/-- The identity key of a raw collector record: (entity, date, title). -/
def rawKey (d : RawDisclosure) : String × String × String :=
  (d.stock_code, d.date, d.title)

/-- A concrete raw record family for instantiating the walker: same stock
and date, titles distinguished by index. -/
def c3rec (i : Nat) : RawDisclosure :=
  { stock_code := "7203"
    company_name := "トヨタ自動車"
    title := "開示" ++ toString i
    date := "2026-01-05"
    datetimeStr := some "2026-01-05 10:00"
    category := "その他"
    info_type := some "適時開示"
    source := "株探"
    year := 2026
    month := 1 }

/-- A concrete period: 45 raw records across 3 pages — 43 distinct identity
keys plus repeats of the first two records on page 3 (the page-boundary
shift the spec describes); all later pages are empty. -/
def c3pages : Nat → Option (List RawDisclosure) := fun p =>
  if p = 1 then some ((List.range 20).map c3rec)
  else if p = 2 then some ((List.range 20).map (fun i => c3rec (20 + i)))
  else if p = 3 then some [c3rec 40, c3rec 41, c3rec 42, c3rec 0, c3rec 1]
  else some []

/-- A table cell with no HTML attributes. -/
def mkCell (t : String) : Cell := { text := t, attrs := [] }

/-- A concrete six-cell disclosure row whose datetime cell carries a
machine-readable `datetime` attribute naming 2026-02-06 while its visible
text reads `26/02/07 18:05` — a different day. -/
def c4cells : List Cell :=
  [mkCell "7203", mkCell "トヨタ自動車", mkCell "東証Ｐ", mkCell "適時開示",
   mkCell "業績予想の修正に関するお知らせ",
   { text := "26/02/07 18:05",
     attrs := [("datetime", "2026-02-06T18:05:00+09:00")] }]

/-- A concrete period schedule: page 1 yields one record, pages 2-6 are five
consecutive fetch failures, page 7 yields another record, everything later
is empty. -/
def c5pages : Nat → Option (List RawDisclosure) := fun p =>
  if p = 1 then some [c3rec 100]
  else if p ≤ 6 then none
  else if p = 7 then some [c3rec 101]
  else some []

/-- A concrete period schedule: page 1 yields one record and every later
fetch fails. -/
def c5pagesAbort : Nat → Option (List RawDisclosure) := fun p =>
  if p = 1 then some [c3rec 100]
  else none

/-- A sample enhanced record scoring 0.8 (8 tenths) — above the
major-disclosure threshold. -/
def sampleMajorDisc : EnhancedDisclosure :=
  { sampleDisc "重要な開示" with importance_score := 8 }

/-- Modelled from the spec: days in a Gregorian month (the spec's
"a day that actually exists in the given month and year"). -/
def specDaysInMonth (year month : Nat) : Nat :=
  if month = 2 then
    if year % 4 = 0 ∧ (year % 100 ≠ 0 ∨ year % 400 = 0) then 29 else 28
  else if month = 4 ∨ month = 6 ∨ month = 9 ∨ month = 11 then 30
  else 31

/-- Modelled from the spec: a (year, month, day) triple is a valid calendar
date when the day exists in that month of that year. -/
def specValidCalendarDate (year month day : Nat) : Bool :=
  decide (1 ≤ month) && decide (month ≤ 12) && decide (1 ≤ day) &&
  decide (day ≤ specDaysInMonth year month)

/-- A concrete six-cell disclosure row whose datetime text names February
30th — a day that does not exist. -/
def c8cells : List Cell :=
  [mkCell "7203", mkCell "トヨタ自動車", mkCell "東証Ｐ", mkCell "適時開示",
   mkCell "臨時報告書の提出", mkCell "26/02/30 15:00"]

/-- A concrete six-cell disclosure row whose datetime text parses under no
supported pattern. -/
def c10cells : List Cell :=
  [mkCell "7203", mkCell "トヨタ自動車", mkCell "東証Ｐ", mkCell "適時開示",
   mkCell "業績予想の修正に関するお知らせ", mkCell "近日"]

/-- The record `parse_disclosure_row` produces for `c10cells` in March 2026:
the date falls back to the first of the period. -/
def c10rec : RawDisclosure :=
  { stock_code := "7203"
    company_name := "トヨタ自動車"
    title := "業績予想の修正に関するお知らせ"
    date := "2026-03-01"
    datetimeStr := some "2026-03-01"
    category := "決算・業績"
    info_type := some "適時開示"
    source := "株探"
    year := 2026
    month := 3 }

instance : IsTotal EnhancedDisclosure (fun a b => majorKey b ≤ majorKey a) :=
  ⟨fun a b => le_total (majorKey b) (majorKey a)⟩

instance : IsTrans EnhancedDisclosure (fun a b => majorKey b ≤ majorKey a) :=
  ⟨fun _ _ _ hab hbc => le_trans hbc hab⟩

theorem mergeAux_eq_append (B : List EnhancedDisclosure) :
    ∀ keys acc, ∃ t, mergeAux keys acc B = acc ++ t := by
  induction B with
  | nil => intro keys acc; exact ⟨[], by simp [mergeAux]⟩
  | cons d rest ih =>
    intro keys acc
    by_cases h : create_disclosure_key d ∈ keys
    · simpa [mergeAux, h] using ih keys acc
    · obtain ⟨t, ht⟩ := ih (create_disclosure_key d :: keys) (acc ++ [d])
      exact ⟨[d] ++ t, by simp [mergeAux, h, ht]⟩

theorem mergeAux_length (B : List EnhancedDisclosure) :
    ∀ keys acc, (mergeAux keys acc B).length = acc.length + newKeysCount keys B := by
  induction B with
  | nil => intro keys acc; simp [mergeAux, newKeysCount]
  | cons d rest ih =>
    intro keys acc
    by_cases h : create_disclosure_key d ∈ keys
    · simp [mergeAux, newKeysCount, h, ih]
    · simp [mergeAux, newKeysCount, h, ih]
      omega

theorem mergeAux_key_mem (B : List EnhancedDisclosure) :
    ∀ keys acc, (∀ k ∈ keys, k ∈ acc.map create_disclosure_key) →
      ∀ d ∈ B, create_disclosure_key d ∈
        (mergeAux keys acc B).map create_disclosure_key := by
  induction B with
  | nil => intro keys acc _ d hd; cases hd
  | cons b rest ih =>
    intro keys acc hinv d hd
    by_cases h : create_disclosure_key b ∈ keys
    · rw [List.mem_cons] at hd
      rcases hd with rfl | hd
      · obtain ⟨t, ht⟩ := mergeAux_eq_append rest keys acc
        have := hinv _ h
        simp only [mergeAux, if_pos h, ht, List.map_append, List.mem_append]
        exact Or.inl this
      · simpa [mergeAux, h] using ih keys acc hinv d hd
    · have hinv' : ∀ k ∈ create_disclosure_key b :: keys,
          k ∈ (acc ++ [b]).map create_disclosure_key := by
        intro k hk
        rcases List.mem_cons.mp hk with rfl | hk
        · simp
        · simp only [List.map_append, List.mem_append]
          exact Or.inl (hinv _ hk)
      rw [List.mem_cons] at hd
      rcases hd with rfl | hd
      · obtain ⟨t, ht⟩ := mergeAux_eq_append rest
          (create_disclosure_key d :: keys) (acc ++ [d])
        simp only [mergeAux, if_neg h, ht, List.map_append, List.mem_append]
        left; simp
      · simpa [mergeAux, h] using
          ih (create_disclosure_key b :: keys) (acc ++ [b]) hinv' d hd

theorem mergeAux_no_new (B : List EnhancedDisclosure) :
    ∀ keys acc, (∀ d ∈ B, create_disclosure_key d ∈ keys) →
      mergeAux keys acc B = acc := by
  induction B with
  | nil => intro keys acc _; rfl
  | cons d rest ih =>
    intro keys acc h
    have hd : create_disclosure_key d ∈ keys := h d (by simp)
    simp only [mergeAux, if_pos hd]
    exact ih keys acc (fun x hx => h x (by simp [hx]))

theorem newKeysCount_congr (B : List EnhancedDisclosure) :
    ∀ keys keys',
      (∀ s ∈ B.map create_disclosure_key, (s ∈ keys ↔ s ∈ keys')) →
      newKeysCount keys B = newKeysCount keys' B := by
  induction B with
  | nil => intro keys keys' _; rfl
  | cons d rest ih =>
    intro keys keys' h
    have hd := h (create_disclosure_key d) (by simp)
    by_cases hk : create_disclosure_key d ∈ keys
    · have hk' : create_disclosure_key d ∈ keys' := hd.mp hk
      simp only [newKeysCount, if_pos hk, if_pos hk']
      exact ih keys keys' (fun s hs => h s (by simp [hs]))
    · have hk' : create_disclosure_key d ∉ keys' := fun hc => hk (hd.mpr hc)
      simp only [newKeysCount, if_neg hk, if_neg hk']
      have : newKeysCount (create_disclosure_key d :: keys) rest =
          newKeysCount (create_disclosure_key d :: keys') rest := by
        refine ih _ _ (fun s hs => ?_)
        simp only [List.mem_cons]
        constructor
        · rintro (rfl | hsk)
          · exact Or.inl rfl
          · exact Or.inr ((h s (by simp [hs])).mp hsk)
        · rintro (rfl | hsk)
          · exact Or.inl rfl
          · exact Or.inr ((h s (by simp [hs])).mpr hsk)
      omega

theorem newKeysCount_cons_le (B : List EnhancedDisclosure) :
    ∀ keys k, newKeysCount keys B ≤ newKeysCount (k :: keys) B + 1 := by
  induction B with
  | nil => intro keys k; simp [newKeysCount]
  | cons d rest ih =>
    intro keys k
    by_cases h : create_disclosure_key d ∈ keys
    · have h' : create_disclosure_key d ∈ k :: keys := by simp [h]
      simp only [newKeysCount, if_pos h, if_pos h']
      exact ih keys k
    · by_cases he : create_disclosure_key d = k
      · subst he
        have h' : create_disclosure_key d ∈ create_disclosure_key d :: keys := by
          simp
        simp only [newKeysCount, if_neg h, if_pos h']
        omega
      · have h' : create_disclosure_key d ∉ k :: keys := by
          simp [List.mem_cons, h, he]
        simp only [newKeysCount, if_neg h, if_neg h']
        have hc : newKeysCount (create_disclosure_key d :: k :: keys) rest =
            newKeysCount (k :: create_disclosure_key d :: keys) rest := by
          refine newKeysCount_congr rest _ _ (fun s _ => ?_)
          simp only [List.mem_cons]
          tauto
        have := ih (create_disclosure_key d :: keys) k
        omega

theorem newKeysCount_nil_le (B : List EnhancedDisclosure) :
    ∀ keys, newKeysCount [] B ≤ newKeysCount keys B + keys.length := by
  intro keys
  induction keys with
  | nil => simp
  | cons k ks ih =>
    have := newKeysCount_cons_le B ks k
    simp only [List.length_cons]
    omega

theorem newKeysCount_nil_of_nodup (B : List EnhancedDisclosure)
    (h : (B.map create_disclosure_key).Nodup) :
    newKeysCount [] B = B.length := by
  induction B with
  | nil => rfl
  | cons d rest ih =>
    simp only [List.map_cons, List.nodup_cons] at h
    have hc : newKeysCount [create_disclosure_key d] rest =
        newKeysCount [] rest := by
      refine newKeysCount_congr rest _ _ (fun s hs => ?_)
      simp only [List.mem_singleton, List.not_mem_nil, iff_false]
      intro rfl_eq
      exact h.1 (rfl_eq ▸ hs)
    simp [newKeysCount, hc, ih h.2]

/-- C1: entity merge is monotonic under the identity key: the merged list
extends the existing list `A` unchanged, covers every identity key of the
new list `B`, and is at least as long as `A`; it is at least as long as `B`
whenever `B` carries no identity-key duplicates — the amendment the
counterexample forces, since `merge_disclosures` collapses duplicate keys
inside `B` itself. -/
theorem C1_merge_monotonic_union (A B : List EnhancedDisclosure) :
    (∃ t, merge_disclosures A B = A ++ t) ∧
    (∀ d ∈ B, create_disclosure_key d ∈
      (merge_disclosures A B).map create_disclosure_key) ∧
    A.length ≤ (merge_disclosures A B).length ∧
    ((B.map create_disclosure_key).Nodup →
      B.length ≤ (merge_disclosures A B).length) := by
  refine ⟨mergeAux_eq_append B _ A, ?_, ?_, ?_⟩
  · exact mergeAux_key_mem B (A.map create_disclosure_key) A (fun k hk => hk)
  · have := mergeAux_length B (A.map create_disclosure_key) A
    unfold merge_disclosures
    omega
  · intro hnd
    have h1 := mergeAux_length B (A.map create_disclosure_key) A
    have h2 := newKeysCount_nil_le B (A.map create_disclosure_key)
    have h3 := newKeysCount_nil_of_nodup B hnd
    unfold merge_disclosures
    simp only [List.length_map] at h2
    omega

/-- C1 counterexample: with `A` a single record and `B` three copies of one
record whose key is new, the merge has 2 records — strictly fewer than
`max |A| |B| = 3`, refuting the claim's size bound for duplicate-carrying
`B`. -/
theorem C1_counterexample :
    (merge_disclosures [sampleDisc "自己株式の取得"]
        [sampleDisc "業績予想", sampleDisc "業績予想", sampleDisc "業績予想"]).length <
      max [sampleDisc "自己株式の取得"].length
        [sampleDisc "業績予想", sampleDisc "業績予想", sampleDisc "業績予想"].length := by
  decide

/-- C1 witness: the amended theorem applied at one existing record and one
genuinely new record. -/
theorem C1_witness :
    create_disclosure_key (sampleDisc "業績予想") ∈
      (merge_disclosures [sampleDisc "自己株式の取得"]
        [sampleDisc "業績予想"]).map create_disclosure_key ∧
    [sampleDisc "業績予想"].length ≤
      (merge_disclosures [sampleDisc "自己株式の取得"]
        [sampleDisc "業績予想"]).length :=
  ⟨(C1_merge_monotonic_union [sampleDisc "自己株式の取得"]
      [sampleDisc "業績予想"]).2.1 _ (by simp),
   (C1_merge_monotonic_union [sampleDisc "自己株式の取得"]
      [sampleDisc "業績予想"]).2.2.2 (by decide)⟩

/-- C2: when the existing store already contains, by identity key, every
newly observed record, the merge returns the existing list unchanged and the
incremental branch takes its explicit skip (`none`) — no write happens. -/
theorem C2_incremental_no_write (existing newDs : List EnhancedDisclosure)
    (h : ∀ d ∈ newDs, create_disclosure_key d ∈
      existing.map create_disclosure_key) :
    merge_disclosures existing newDs = existing ∧
    process_stock_incremental (some existing) newDs = none := by
  have hm : merge_disclosures existing newDs = existing :=
    mergeAux_no_new newDs _ existing h
  refine ⟨hm, ?_⟩
  simp [process_stock_incremental, hm]

/-- C2 witness: re-observing the store's only record produces the skip. -/
theorem C2_witness :
    merge_disclosures [sampleDisc "配当方針"] [sampleDisc "配当方針"] =
      [sampleDisc "配当方針"] ∧
    process_stock_incremental (some [sampleDisc "配当方針"])
      [sampleDisc "配当方針"] = none :=
  C2_incremental_no_write [sampleDisc "配当方針"] [sampleDisc "配当方針"]
    (by decide)

/-- C3 counterexample: a period fetch returning 45 raw records across 3
pages with exactly 2 identity-key duplicates (43 distinct keys) is stored
with `total_disclosures = 45`, not 43 — no deduplication runs between the
page walk and the period persist. -/
theorem C3_counterexample :
    (fetch_month_disclosures c3pages).1.length = 45 ∧
    ((fetch_month_disclosures c3pages).1.map rawKey).dedup.length = 43 ∧
    (save_month_to_s3 2026 1
      (fetch_month_disclosures c3pages).1).total_disclosures = 45 ∧
    (save_month_to_s3 2026 1
      (fetch_month_disclosures c3pages).1).total_disclosures ≠ 43 := by
  refine ⟨by decide, by decide, by decide, by decide⟩

/-- C3 (amended): the collector persists the raw combined page records as
they are; `total_disclosures` always equals the raw record count, and
identity-key deduplication happens only later, in the aggregator's merge
into an existing entity store. -/
theorem C3_total_is_raw_count (year month : Nat)
    (disclosures : List RawDisclosure) :
    (save_month_to_s3 year month disclosures).total_disclosures =
      disclosures.length := rfl

/-- C4 counterexample: on a row whose datetime cell carries the
machine-readable attribute `2026-02-06T18:05:00+09:00` but shows the visible
text `26/02/07 18:05`, the parser produces the visible-text date
`2026-02-07` — the attribute is never read, so it does not take precedence. -/
theorem C4_counterexample :
    (parse_disclosure_row c4cells 2026 2).map RawDisclosure.date =
      some "2026-02-07" ∧
    ("2026-02-07" : String) ≠ "2026-02-06" := by
  refine ⟨by decide, by decide⟩

/-- C4 (amended): the two-digit-year slash form `26/02/06` normalizes to
`2026-02-06` through the fixed century offset 2000, and row parsing is a
function of the cells' visible text alone — any machine-readable date
attribute on the cells is ignored, so no attribute can take precedence. -/
theorem C4_date_normalization :
    (∀ year, parse_datetime_str "26/02/06" year = (some "2026-02-06", none)) ∧
    (∀ (cells cells' : List Cell) (year month : Nat),
      cells.map Cell.text = cells'.map Cell.text →
      parse_disclosure_row cells year month =
        parse_disclosure_row cells' year month) := by
  constructor
  · intro year; rfl
  · intro cells cells' year month h
    have htrim : cells.map (fun c => pyStrip c.text) =
        cells'.map (fun c => pyStrip c.text) := by
      have := congrArg (List.map pyStrip) h
      simpa [List.map_map, Function.comp] using this
    simp only [parse_disclosure_row, htrim]

/-- C4 witness: the amended theorem applied at the concrete attribute-bearing
row and its attribute-stripped copy. -/
theorem C4_witness :
    parse_disclosure_row c4cells 2026 2 =
      parse_disclosure_row (c4cells.map (fun c => mkCell c.text)) 2026 2 :=
  C4_date_normalization.2 c4cells (c4cells.map (fun c => mkCell c.text)) 2026 2
    (by decide)

/-- C5 counterexample: after five consecutive fetch failures (pages 2-6) the
walker keeps probing and also collects page 7's record — the result holds
both records, not only the one collected before the failures, so no
five-failure abort of the period exists. -/
theorem C5_counterexample :
    (fetch_month_disclosures c5pages).1 = [c3rec 100, c3rec 101] ∧
    [c3rec 100, c3rec 101] ≠ [c3rec 100] := by
  refine ⟨by decide, by decide⟩

/-- C5 (amended): fetch failures are counted by the same consecutive counter
as empty pages (bound `max_consecutive_empty = 20`), not by a distinct
five-failure counter; once the walker faces a run of failed-or-empty pages
long enough to push that shared counter to 20, it stops the period and
returns exactly the records already collected, never discarding them. -/
theorem C5_walker_shared_counter (pages : Nat → Option (List RawDisclosure)) :
    ∀ (fuel page consec j : Nat) (acc : List RawDisclosure),
      20 ≤ consec + j →
      (∀ i, i < j → pages (page + i) = none ∨ pages (page + i) = some []) →
      (fetchMonthGo pages fuel page consec acc).1 = acc := by
  intro fuel
  induction fuel with
  | zero => intro page consec j acc _ _; rfl
  | succ fuel ih =>
    intro page consec j acc hc hbad
    by_cases h20 : 20 ≤ consec
    · simp [fetchMonthGo, h20]
    · have hj : 1 ≤ j := by omega
      have h0 := hbad 0 (by omega)
      simp only [Nat.add_zero] at h0
      have hbad' : ∀ i, i < j - 1 →
          pages (page + 1 + i) = none ∨ pages (page + 1 + i) = some [] := by
        intro i hi
        have heq : page + 1 + i = page + (i + 1) := by omega
        rw [heq]
        exact hbad (i + 1) (by omega)
      rcases h0 with h0 | h0
      · simp only [fetchMonthGo, if_neg h20, h0]
        exact ih (page + 1) (consec + 1) (j - 1) acc (by omega) hbad'
      · simp only [fetchMonthGo, if_neg h20, h0, List.isEmpty_nil, if_true]
        by_cases hp : page + 1 > 1000
        · simp [hp]
        · simp only [if_neg hp]
          exact ih (page + 1) (consec + 1) (j - 1) acc (by omega) hbad'

/-- C5 witness: the shared-counter theorem applied to the concrete
all-failures schedule, resuming just after page 1's record was collected. -/
theorem C5_witness :
    (fetchMonthGo c5pagesAbort 21999 2 0 [c3rec 100]).1 = [c3rec 100] :=
  C5_walker_shared_counter c5pagesAbort 21999 2 0 20 [c3rec 100]
    (by decide) (by decide)

/-- C6: category assignment is a first-match priority rule — every title
containing one of the earnings keywords (`決算`, `業績`, `四半期`, `売上`,
`利益`) is assigned the earnings/performance category `決算・業績`,
whatever later rules' keywords also appear in the title. -/
theorem C6_category_first_match (title : String)
    (h : (["決算", "業績", "四半期", "売上", "利益"].any
      (fun w => pyIn w title)) = true) :
    categorize_disclosure title = "決算・業績" := by
  simp only [categorize_disclosure, if_pos h]

/-- C6 witness: a title carrying both the earnings keyword and the
dividend keyword of the later rule still maps to the earnings category. -/
theorem C6_witness :
    categorize_disclosure "決算発表及び配当予想の修正に関するお知らせ" =
      "決算・業績" :=
  C6_category_first_match "決算発表及び配当予想の修正に関するお知らせ" (by decide)

/-- C7: every persist recomputes the stored summary from the document's full
merged record list, and the major-disclosures list holds exactly the records
scoring at least 0.6 — each member comes from the input and scores ≥ 0.6,
the list is sorted by normalized date descending, its length is the filter
count capped at 20, and whenever at most 20 records qualify every qualifying
record is present. -/
theorem C7_summary_major_disclosures (stock_code : String)
    (disclosures : List EnhancedDisclosure) :
    (save_stock_data_to_s3 stock_code disclosures).summary =
      create_stock_summary stock_code
        ((save_stock_data_to_s3 stock_code disclosures).disclosures) ∧
    (∀ d ∈ (save_stock_data_to_s3 stock_code disclosures).summary.major_disclosures,
      d ∈ disclosures ∧ 6 ≤ d.importance_score) ∧
    (save_stock_data_to_s3 stock_code disclosures).summary.major_disclosures.length =
      min 20 ((disclosures.filter
        (fun d => decide (6 ≤ d.importance_score))).length) ∧
    List.Pairwise
      (fun a b => (b.date_normalized.getD "" : String) ≤ a.date_normalized.getD "")
      (save_stock_data_to_s3 stock_code disclosures).summary.major_disclosures ∧
    ((disclosures.filter
        (fun d => decide (6 ≤ d.importance_score))).length ≤ 20 →
      ∀ d ∈ disclosures, 6 ≤ d.importance_score →
        d ∈ (save_stock_data_to_s3 stock_code disclosures).summary.major_disclosures) := by
  have hperm : List.Perm (disclosures.insertionSort
      (fun a b => a.date_normalized.getD "" ≤ b.date_normalized.getD ""))
        disclosures :=
    List.perm_insertionSort _ disclosures
  have hmaj : (save_stock_data_to_s3 stock_code disclosures).summary.major_disclosures =
      major_disclosures_list (disclosures.insertionSort
        (fun a b => a.date_normalized.getD "" ≤ b.date_normalized.getD "")) := rfl
  set sorted := disclosures.insertionSort
    (fun a b => a.date_normalized.getD "" ≤ b.date_normalized.getD "") with hsorted
  have hfiltperm : List.Perm
      (sorted.filter (fun d => decide (6 ≤ d.importance_score)))
      (disclosures.filter (fun d => decide (6 ≤ d.importance_score))) :=
    hperm.filter _
  have hsortperm : List.Perm
      ((sorted.filter
        (fun d => decide (6 ≤ d.importance_score))).insertionSort
          (fun a b => majorKey b ≤ majorKey a))
      (sorted.filter (fun d => decide (6 ≤ d.importance_score))) :=
    List.perm_insertionSort _ _
  refine ⟨rfl, ?_, ?_, ?_, ?_⟩
  · intro d hd
    rw [hmaj] at hd
    have hd2 : d ∈ (sorted.filter
        (fun d => decide (6 ≤ d.importance_score))).insertionSort
          (fun a b => majorKey b ≤ majorKey a) :=
      List.mem_of_mem_take hd
    have hd3 := hsortperm.mem_iff.mp hd2
    have hd4 := List.mem_filter.mp hd3
    exact ⟨hperm.mem_iff.mp hd4.1, of_decide_eq_true hd4.2⟩
  · rw [hmaj]
    unfold major_disclosures_list
    rw [List.length_take, List.length_insertionSort, hfiltperm.length_eq]
  · rw [hmaj]
    unfold major_disclosures_list
    have hsortsorted : List.Sorted (fun a b => majorKey b ≤ majorKey a)
        ((sorted.filter
          (fun d => decide (6 ≤ d.importance_score))).insertionSort
            (fun a b => majorKey b ≤ majorKey a)) :=
      List.sorted_insertionSort _ _
    have hpw : List.Pairwise (fun a b => majorKey b ≤ majorKey a)
        (((sorted.filter
          (fun d => decide (6 ≤ d.importance_score))).insertionSort
            (fun a b => majorKey b ≤ majorKey a)).take 20) :=
      List.Pairwise.sublist (List.take_sublist _ _) hsortsorted
    refine hpw.imp ?_
    intro a b hab
    have := Prod.Lex.le_iff (toLex ((b.date_normalized.getD "" : String),
      b.importance_score)) (toLex ((a.date_normalized.getD "" : String),
      a.importance_score)) |>.mp hab
    rcases this with h | h
    · exact le_of_lt h
    · exact le_of_eq h.1
  · intro hle d hd hscore
    rw [hmaj]
    unfold major_disclosures_list
    have hlen : ((sorted.filter
        (fun d => decide (6 ≤ d.importance_score))).insertionSort
          (fun a b => majorKey b ≤ majorKey a)).length ≤ 20 := by
      rw [List.length_insertionSort, hfiltperm.length_eq]
      exact hle
    rw [List.take_of_length_le hlen]
    refine hsortperm.mem_iff.mpr ?_
    refine List.mem_filter.mpr ⟨hperm.mem_iff.mpr hd, decide_eq_true hscore⟩

/-- C7 witness: a single record scoring 0.8 appears in its own persisted
major-disclosures list. -/
theorem C7_witness :
    sampleMajorDisc ∈
      (save_stock_data_to_s3 "7203" [sampleMajorDisc]).summary.major_disclosures :=
  (C7_summary_major_disclosures "7203" [sampleMajorDisc]).2.2.2.2 (by decide)
    sampleMajorDisc (by simp) (by decide)

theorem parse_datetime_p2_bounds (text : String) (d : String)
    (t : Option String) (h : parse_datetime_p2 text = (some d, t)) :
    ∃ yy mm dd, 1 ≤ mm ∧ mm ≤ 12 ∧ 1 ≤ dd ∧ dd ≤ 31 ∧
      d = fmtDate (2000 + yy) mm dd := by
  unfold parse_datetime_p2 at h
  split at h
  case h_1 yy mm dd heq =>
    split at h
    case isTrue hb =>
      obtain ⟨h1, -⟩ := Prod.mk.injEq .. ▸ h
      exact ⟨yy, mm, dd, hb.1, hb.2.1, hb.2.2.1, hb.2.2.2,
        (Option.some.injEq .. ▸ h1).symm⟩
    case isFalse => cases h
  case h_2 => cases h

theorem parse_datetime_str_bounds (text : String) (year : Nat) (d : String)
    (t : Option String) (h : parse_datetime_str text year = (some d, t)) :
    ∃ yy mm dd, 1 ≤ mm ∧ mm ≤ 12 ∧ 1 ≤ dd ∧ dd ≤ 31 ∧
      d = fmtDate (2000 + yy) mm dd := by
  unfold parse_datetime_str at h
  split at h
  case h_1 yy mm dd ts heq =>
    split at h
    case isTrue hb =>
      obtain ⟨h1, -⟩ := Prod.mk.injEq .. ▸ h
      exact ⟨yy, mm, dd, hb.1, hb.2.1, hb.2.2.1, hb.2.2.2,
        (Option.some.injEq .. ▸ h1).symm⟩
    case isFalse => exact parse_datetime_p2_bounds text d t h
  case h_2 => exact parse_datetime_p2_bounds text d t h

/-- C8 counterexample: the collector's day validation only checks the range
1..31, so the impossible date February 30th passes: the row text
`26/02/30 15:00` parses to `2026-02-30` and flows through row parsing and
the Normalizer's date normalization unchanged, while 2026-02-30 is not a
valid calendar date. -/
theorem C8_counterexample :
    parse_datetime_str "26/02/30 15:00" 2026 =
      (some "2026-02-30", some "15:00") ∧
    (parse_disclosure_row c8cells 2026 2).map RawDisclosure.date =
      some "2026-02-30" ∧
    ((parse_disclosure_row c8cells 2026 2).bind
      enhance_disclosure_data).map EnhancedDisclosure.date_normalized =
        some (some "2026-02-30") ∧
    specValidCalendarDate 2026 2 30 = false := by
  refine ⟨by decide, by decide, by decide, by decide⟩

/-- C8 (amended): every date the datetime parser emits has its month
range-checked to 1..12 and its day range-checked only to 1..31 — so days
that do not exist in the given month (such as February 30th) can pass — and
the importance score always lies in (0, 1]: in tenths, between 1 and 10. -/
theorem C8_record_invariants :
    (∀ (text : String) (year : Nat) (d : String) (t : Option String),
      parse_datetime_str text year = (some d, t) →
      ∃ yy mm dd, 1 ≤ mm ∧ mm ≤ 12 ∧ 1 ≤ dd ∧ dd ≤ 31 ∧
        d = fmtDate (2000 + yy) mm dd) ∧
    (∀ (title category_detailed : String),
      1 ≤ calculate_importance_score title category_detailed ∧
      calculate_importance_score title category_detailed ≤ 10) := by
  constructor
  · exact fun text year d t h => parse_datetime_str_bounds text year d t h
  · intro title c
    simp only [calculate_importance_score]
    refine ⟨Nat.le_min.mpr ⟨?_, by omega⟩, Nat.min_le_right _ _⟩
    have hbase : 1 ≤ (if c ∈ high_importance_categories then (5 : Nat)
        else if c ∈ medium_importance_categories then 3 else 1) := by
      split
      · omega
      · split <;> omega
    omega

/-- C8 witness: the amended theorem applied at the parsed text `26/02/06`
and at a concrete title/category pair. -/
theorem C8_witness :
    (∃ yy mm dd, 1 ≤ mm ∧ mm ≤ 12 ∧ 1 ≤ dd ∧ dd ≤ 31 ∧
      "2026-02-06" = fmtDate (2000 + yy) mm dd) ∧
    (1 ≤ calculate_importance_score "決算短信" "決算短信" ∧
      calculate_importance_score "決算短信" "決算短信" ≤ 10) :=
  ⟨C8_record_invariants.1 "26/02/06" 2026 "2026-02-06" none (by decide),
   C8_record_invariants.2 "決算短信" "決算短信"⟩

theorem stockOutputKey_ne_indexKey (code : String) (h4 : code.length = 4) :
    stockOutputKey code ≠ indexKey := by
  intro he
  have hlen := congrArg String.length he
  unfold stockOutputKey indexKey at hlen
  rw [String.length_append, String.length_append, h4] at hlen
  exact absurd hlen (by decide)

/-- C9: an incremental aggregator run writes only per-stock keys — every
stock code entering the grouping passes the four-character filter, and no
four-character stock key can equal the index key — so the global index
document is never written or modified in incremental mode, while a full run
does write it. -/
theorem C9_incremental_index_untouched
    (stockData : List (String × List EnhancedDisclosure))
    (existingStore : String → Option (List EnhancedDisclosure))
    (h : ∀ p ∈ stockData, is_valid_stock_code p.1 = true) :
    indexKey ∉
      run_stock_based_organization_writes Mode.incremental stockData
        existingStore ∧
    indexKey ∈
      run_stock_based_organization_writes Mode.full stockData existingStore := by
  constructor
  · intro hmem
    simp only [run_stock_based_organization_writes, process_stocks_writes,
      List.append_nil] at hmem
    obtain ⟨p, hp, hk⟩ := List.mem_filterMap.mp hmem
    have hkey : stockOutputKey p.1 = indexKey := by
      rcases hpi : process_stock_incremental (existingStore p.1) p.2 with _ | m
      · rw [hpi] at hk; cases hk
      · rw [hpi] at hk
        exact Option.some.injEq .. ▸ hk
    have hclen : p.1.length = 4 := by
      have hv := h p hp
      simp only [is_valid_stock_code, Bool.and_eq_true, beq_iff_eq] at hv
      exact hv.1
    exact stockOutputKey_ne_indexKey p.1 hclen hkey
  · simp [run_stock_based_organization_writes]

/-- C9 witness: the theorem applied at one concrete first-sighting stock. -/
theorem C9_witness :
    indexKey ∉ run_stock_based_organization_writes Mode.incremental
      [("7203", [sampleDisc "第三者割当増資"])] (fun _ => none) ∧
    indexKey ∈ run_stock_based_organization_writes Mode.full
      [("7203", [sampleDisc "第三者割当増資"])] (fun _ => none) :=
  C9_incremental_index_untouched [("7203", [sampleDisc "第三者割当増資"])]
    (fun _ => none) (by decide)

theorem fmtDate_ne_empty (y m d : Nat) : fmtDate y m d ≠ "" := by
  intro he
  have hlen := congrArg String.length he
  unfold fmtDate at hlen
  simp only [String.length_append] at hlen
  have h1 : ("-" : String).length = 1 := by decide
  have h0 : ("" : String).length = 0 := by decide
  simp only [h1, h0] at hlen
  omega

theorem fallbackDate_ne_empty (y m : Nat) :
    toString y ++ "-" ++ pad2 m ++ "-01" ≠ "" := by
  intro he
  have hlen := congrArg String.length he
  simp only [String.length_append] at hlen
  have h1 : ("-" : String).length = 1 := by decide
  have h3 : ("-01" : String).length = 3 := by decide
  have h0 : ("" : String).length = 0 := by decide
  simp only [h1, h3, h0] at hlen
  omega

theorem parse_fst_some_pair (text : String) (year : Nat) (d : String)
    (h : (parse_datetime_str text year).1 = some d) :
    parse_datetime_str text year = (some d, (parse_datetime_str text year).2) :=
  Prod.ext h rfl

theorem parsed_date_ne_empty (text : String) (year : Nat) (d : String)
    (h : (parse_datetime_str text year).1 = some d) : d ≠ "" := by
  obtain ⟨yy, mm, dd, -, -, -, -, hd⟩ :=
    parse_datetime_str_bounds text year d _ (parse_fst_some_pair text year d h)
  rw [hd]
  exact fmtDate_ne_empty _ _ _

/-- C10: both extraction paths fall back to the first day of the fetched
period when the datetime text parses under no supported pattern, and every
record either path emits carries a non-empty date string. -/
theorem C10_date_fallback_nonempty :
    (∀ (cells : List Cell) (year month : Nat) (r : RawDisclosure),
      parse_disclosure_row cells year month = some r →
      r.date ≠ "" ∧
      ((parse_datetime_str
          (pyStrip ((cells.map (fun c => pyStrip c.text)).getD 5 "")) year).1 =
            none →
        r.date = toString year ++ "-" ++ pad2 month ++ "-01")) ∧
    (∀ (itemText : String) (year month : Nat) (r : RawDisclosure),
      parse_disclosure_item itemText year month = some r →
      r.date ≠ "" ∧
      ((parse_datetime_str (pyStrip itemText) year).1 = none →
        r.date = toString year ++ "-" ++ pad2 month ++ "-01")) := by
  constructor
  · intro cells year month r h
    simp only [parse_disclosure_row] at h
    split at h
    case h_2 => cases h
    case h_1 t0 t1 t2 t3 t4 t5 rest heq =>
      rw [heq]
      split at h
      case isFalse => cases h
      case isTrue =>
        split at h
        case isFalse => cases h
        case isTrue =>
          obtain rfl := (Option.some.injEq .. ▸ h).symm
          simp only [List.getD_cons_succ, List.getD_cons_zero]
          cases hp : (parse_datetime_str (pyStrip t5) year).1 with
          | some d =>
            constructor
            · exact parsed_date_ne_empty (pyStrip t5) year d hp
            · intro hnone
              cases hnone
          | none =>
            constructor
            · exact fallbackDate_ne_empty year month
            · intro _
              rfl
  · intro itemText year month r h
    simp only [parse_disclosure_item] at h
    split at h
    case isTrue => cases h
    case isFalse =>
      split at h
      case isTrue => cases h
      case isFalse =>
        split at h
        case isTrue => cases h
        case isFalse =>
          split at h
          case h_1 => cases h
          case h_2 stock_code hfind =>
            obtain rfl := (Option.some.injEq .. ▸ h).symm
            cases hp : (parse_datetime_str (pyStrip itemText) year).1 with
            | some d =>
              constructor
              · exact parsed_date_ne_empty (pyStrip itemText) year d hp
              · intro hnone
                cases hnone
            | none =>
              constructor
              · exact fallbackDate_ne_empty year month
              · intro _
                rfl

/-- C10 witness: the row whose datetime text `近日` parses under no pattern
receives the March 2026 month-start fallback date, which is non-empty. -/
theorem C10_witness :
    c10rec.date ≠ "" ∧
    c10rec.date = toString 2026 ++ "-" ++ pad2 3 ++ "-01" :=
  ⟨(C10_date_fallback_nonempty.1 c10cells 2026 3 c10rec (by decide)).1,
   (C10_date_fallback_nonempty.1 c10cells 2026 3 c10rec (by decide)).2
     (by decide)⟩
